import Mathlib

/-!
Verification of the schedule-derivation and Gantt-layout engine of
the Construction Schedule Planner (work.py).

Dates are modelled at day granularity as integers (a day count), matching
the source, where every date is truncated to day granularity before any
arithmetic.  Chart coordinates are rationals (millisecond timestamps with a
one-day quantum of 86400000 ms), matching the plotly trace computations.
-/

namespace Schedule

/-- A calendar date, as a signed whole-day count. -/
abbrev Date := Int

/-- A task record as stored in the session task list (work.py lines 33-42):
keys Task, Duration, Start Date, Depends On, Progress, Actual Start,
Actual Finish, Delay. -/
structure Task where
  name : String
  duration : Int
  startDate : Date
  dependsOn : String := ""
  progress : Int := 0
  actualStart : Option Date := none
  actualFinish : Option Date := none
  delay : Option Int := none
deriving Repr, DecidableEq

/-- Python str.lower, at character-list granularity: the lowercased
character sequence of a string (used by the add-task duplicate check,
work.py line 27, and the dependency lookup, line 209). -/
def lowerStr (s : String) : List Char := s.data.map Char.toLower

/-- Python str.strip, at character-list granularity: the character sequence
with leading and trailing whitespace removed (work.py line 105). -/
def stripStr (s : String) : List Char :=
  ((s.data.dropWhile Char.isWhitespace).reverse.dropWhile
    Char.isWhitespace).reverse

/-- planned_finish = Start Date + (Duration - 1) days (work.py lines 59 and 141). -/
def plannedFinish (startDate : Date) (duration : Int) : Date :=
  startDate + (duration - 1)

/-- The delay computation shared by the bulk import (work.py lines 58-63) and
the update handler (lines 140-145): when Actual Finish is present,
delay_days = (Actual Finish - planned_finish).days, appended as
delay_days if delay_days != 0 else 0; when absent, None. -/
def computeDelay (startDate : Date) (duration : Int) (actualFinish : Option Date) :
    Option Int :=
  match actualFinish with
  | some f =>
      let delayDays : Int := f - plannedFinish startDate duration
      some (if delayDays ≠ 0 then delayDays else 0)
  | none => none

/-- Outcome reported by the add-task handler: the two sidebar warnings or the
success message (work.py lines 26-43). -/
inductive AddResult where
  | emptyName : AddResult
  | duplicate : AddResult
  | added : AddResult
deriving Repr, DecidableEq

/-- The add-task handler (work.py lines 26-43): empty name or a
case-insensitive duplicate is rejected with a warning and the list is kept;
otherwise one new record is appended with empty actuals and no delay. -/
def addTask (tasks : List Task) (taskName : String) (duration : Int)
    (startDate : Date) (dependency : String) (progress : Int) :
    List Task × AddResult :=
  let existingNames := tasks.map (fun task => lowerStr task.name)
  if taskName = "" then
    (tasks, AddResult.emptyName)
  else if lowerStr taskName ∈ existingNames then
    (tasks, AddResult.duplicate)
  else
    (tasks ++ [{ name := taskName
                 duration := duration
                 startDate := startDate
                 dependsOn := dependency
                 progress := progress
                 actualStart := none
                 actualFinish := none
                 delay := none }], AddResult.added)

/-- One data row of the tabular (Excel) dataset, at day granularity.  Cells
of columns that are absent from the sheet are ignored by the loader. -/
structure RawRow where
  task : String
  duration : Int
  startDate : Date
  dependsOn : String := ""
  progress : Int := 0
  actualStart : Option Date := none
  actualFinish : Option Date := none
  delay : Option Int := none
deriving Repr, DecidableEq

/-- A tabular dataset: the column names present in the sheet, plus its rows. -/
structure Sheet where
  cols : List String
  rows : List RawRow
deriving Repr, DecidableEq

/-- Field coercion of one imported row (work.py lines 50-64): absent
Actual Start / Actual Finish columns yield null actuals, absent Depends On
defaults to the empty string, absent Progress defaults to 0, and Delay is
recomputed from Start Date, Duration and the coerced Actual Finish. -/
def coerceRow (cols : List String) (r : RawRow) : Task :=
  let actualStart := if "Actual Start" ∈ cols then r.actualStart else none
  let actualFinish := if "Actual Finish" ∈ cols then r.actualFinish else none
  { name := r.task
    duration := r.duration
    startDate := r.startDate
    dependsOn := if "Depends On" ∈ cols then r.dependsOn else ""
    progress := if "Progress" ∈ cols then r.progress else 0
    actualStart := actualStart
    actualFinish := actualFinish
    delay := computeDelay r.startDate r.duration actualFinish }

/-- load_tasks_from_excel (work.py lines 46-68): requires the Task and
Duration columns, raising ValueError otherwise; reading the Start Date
column raises a KeyError when it is absent.  On success every row is
coerced into a task record with its delay recomputed. -/
def loadTasksFromExcel (sheet : Sheet) : Except String (List Task) :=
  if "Task" ∈ sheet.cols ∧ "Duration" ∈ sheet.cols then
    if "Start Date" ∈ sheet.cols then
      Except.ok (sheet.rows.map (coerceRow sheet.cols))
    else
      Except.error "KeyError: Start Date"
  else
    Except.error "Invalid Excel file format"

/-- The upload handler (work.py lines 71-76): on success the whole store is
replaced by the loaded records; any load failure is caught, reported as a
single sidebar error, and the store is left untouched. -/
def importTasks (store : List Task) (sheet : Sheet) :
    List Task × Option String :=
  match loadTasksFromExcel sheet with
  | Except.ok ts => (ts, none)
  | Except.error e => (store, some e)

/-- Serialization of one task record back to a data row (pd.DataFrame of the
raw records, work.py line 80). -/
def taskToRow (t : Task) : RawRow :=
  { task := t.name
    duration := t.duration
    startDate := t.startDate
    dependsOn := t.dependsOn
    progress := t.progress
    actualStart := t.actualStart
    actualFinish := t.actualFinish
    delay := t.delay }

/-- The column set written by the export (the record keys of work.py
lines 33-42, in order). -/
def exportCols : List String :=
  ["Task", "Duration", "Start Date", "Depends On", "Progress",
   "Actual Start", "Actual Finish", "Delay"]

/-- save_tasks_to_excel (work.py lines 78-87): with a nonempty store the
records are written out as one sheet; with an empty store nothing is
produced and a warning is shown. -/
def saveTasksToExcel (tasks : List Task) : Option Sheet :=
  if tasks = [] then
    none
  else
    some { cols := exportCols, rows := tasks.map taskToRow }

/-- The update-task handler (work.py lines 134-147): every record whose name
equals the selected name gets the new progress and actual dates, and its
delay is recomputed from planned finish and the new actual finish
(delay_days if delay_days != 0 else 0), or cleared when the finish is
absent. -/
def updateTask (tasks : List Task) (selected : String) (newProgress : Int)
    (newActualStart newActualFinish : Option Date) : List Task :=
  tasks.map (fun task =>
    if task.name = selected then
      { task with
          progress := newProgress
          actualStart := newActualStart
          actualFinish := newActualFinish
          delay :=
            match newActualFinish with
            | some f =>
                let delayDays : Int :=
                  f - (task.startDate + (task.duration - 1))
                some (if delayDays ≠ 0 then delayDays else 0)
            | none => none }
    else task)

/-- day_to_ms = 86400000 (work.py line 155). -/
def dayToMs : ℚ := 86400000

/-- start_ts = Start Date timestamp in milliseconds (work.py line 160). -/
def startTs (t : Task) : ℚ := (t.startDate : ℚ) * dayToMs

/-- End Date = Start Date + (Duration - 1) days (work.py line 104). -/
def endDate (t : Task) : Date := t.startDate + (t.duration - 1)

/-- One horizontal bar trace of the chart: x is the bar length in
milliseconds, base the starting timestamp, offset the half-row lane. -/
structure BarTrace where
  x : ℚ
  base : ℚ
  color : String
  label : String
  offset : ℚ
deriving Repr, DecidableEq

/-- The planned bar (work.py lines 165-171): always one per task, spanning
Duration days from the start timestamp, light gray, upper half-row. -/
def plannedTrace (t : Task) : BarTrace :=
  { x := (t.duration : ℚ) * dayToMs
    base := startTs t
    color := "lightgray"
    label := "Planned"
    offset := -(0.2 : ℚ) }

/-- The progress bar (work.py lines 174-183): emitted only when
Progress > 0, spanning Duration * (Progress / 100) days from the start
timestamp, green, same upper half-row. -/
def progressTrace (t : Task) : Option BarTrace :=
  if 0 < t.progress then
    some { x := (t.duration : ℚ) * ((t.progress : ℚ) / 100) * dayToMs
           base := startTs t
           color := "green"
           label := "Progress"
           offset := -(0.2 : ℚ) }
  else
    none

/-- Actual-bar styling selection (work.py lines 190-196): defaults to the
on-time style, overridden to delayed when the numeric delay is positive and
to ahead when it is negative; a missing delay keeps the default. -/
def delayStyle (delay : Option Int) : String × String :=
  match delay with
  | some d =>
      if 0 < d then ("#ff4c4c", "Actual (Delayed)")
      else if d < 0 then ("#ffd700", "Actual (Ahead)")
      else ("#ffa500", "Actual (On Time)")
  | none => ("#ffa500", "Actual (On Time)")

/-- The actual bar (work.py lines 186-204): emitted only when both actual
dates are present, based at the actual start timestamp with length
(Actual Finish - Actual Start + 1 day), lower half-row, styled by the sign
of the delay. -/
def actualTrace (t : Task) : Option BarTrace :=
  match t.actualStart, t.actualFinish with
  | some s, some f =>
      some { x := ((f - s + 1 : Int) : ℚ) * dayToMs
             base := (s : ℚ) * dayToMs
             color := (delayStyle t.delay).1
             label := (delayStyle t.delay).2
             offset := (0.2 : ℚ) }
  | _, _ => none

/-- The 1-3 bar traces of one task, in emission order. -/
def taskTraces (t : Task) : List BarTrace :=
  plannedTrace t :: ((progressTrace t).toList ++ (actualTrace t).toList)

/-- First task (with its dataframe row index, counting from i) whose
lowercased name equals the given lowercased dependency string: the
dep_task.iloc[0] selection of work.py lines 209-211. -/
def findFrom (i : Nat) (tasks : List Task) (depLower : List Char) :
    Option (Nat × Task) :=
  match tasks with
  | [] => none
  | t :: rest =>
      if lowerStr t.name = depLower then some (i, t)
      else findFrom (i + 1) rest depLower

/-- dep_end_ts = End Date timestamp + one day (work.py line 212). -/
def depEndTs (dep : Task) : ℚ := ((endDate dep : Int) : ℚ) * dayToMs + dayToMs

/-- A routed dependency connector: vertical line at viaX from the
predecessor row to this row, horizontal line from viaX to hEndX on this
row, arrow from viaX to arrowX (work.py lines 212-237). -/
structure Connector where
  viaX : ℚ
  fromRow : Nat
  toRow : Nat
  hEndX : ℚ
  arrowX : ℚ
deriving Repr, DecidableEq

/-- The dependency connector of the task at row i (work.py lines 208-237):
with a nonempty (stripped, per line 105) Depends On string, look up the
first task whose name matches case-insensitively; draw nothing when no
match exists.  The horizontal line ends at start_ts - 100000 and the arrow
at start_ts. -/
def connectorFor (tasks : List Task) (i : Nat) (t : Task) : Option Connector :=
  let dep := stripStr t.dependsOn
  if dep ≠ [] then
    match findFrom 0 tasks (dep.map Char.toLower) with
    | some (j, depTask) =>
        some { viaX := depEndTs depTask
               fromRow := j
               toRow := i
               hEndX := startTs t - 100000
               arrowX := startTs t }
    | none => none
  else
    none

/-- A line shape of the chart, with y coordinates given as row positions. -/
structure Shape where
  x0 : ℚ
  y0 : Nat
  x1 : ℚ
  y1 : Nat
deriving Repr, DecidableEq

/-- The two line shapes added for a resolved connector (work.py
lines 215-224): the vertical segment then the horizontal segment. -/
def connectorShapes (c : Connector) : List Shape :=
  [ { x0 := c.viaX, y0 := c.fromRow, x1 := c.viaX, y1 := c.toRow },
    { x0 := c.viaX, y0 := c.toRow, x1 := c.hEndX, y1 := c.toRow } ]

/-- The line shapes actually drawn for the task at row i: none when its
dependency does not resolve, both segments when it does. -/
def drawnShapes (tasks : List Task) (i : Nat) (t : Task) : List Shape :=
  match connectorFor tasks i t with
  | some c => connectorShapes c
  | none => []

/-- A degenerate segment: both endpoints coincide. -/
def zeroLength (s : Shape) : Prop := s.x0 = s.x1 ∧ s.y0 = s.y1

instance (s : Shape) : Decidable (zeroLength s) := by
  unfold zeroLength
  infer_instance

/-- The fields of a task that the dependency lookup and connector geometry
read for candidate predecessors: the name (matched case-insensitively) and
the planned dates behind dep_end_ts. -/
def taskKey (t : Task) : String × Date × Int := (t.name, t.startDate, t.duration)

/-- A concrete task that depends on itself. -/
def selfTask : Task :=
  { name := "A", duration := 3, startDate := 0, dependsOn := "A" }

/-! ## Helper lemmas -/

theorem computeDelay_some (sd : Date) (dur : Int) (f : Date) :
    computeDelay sd dur (some f) = some (f - (sd + (dur - 1))) := by
  unfold computeDelay plannedFinish
  by_cases h : f - (sd + (dur - 1)) = 0 <;> simp [h]

theorem coerceRow_delay (cols : List String) (r : RawRow) :
    (coerceRow cols r).delay
      = computeDelay (coerceRow cols r).startDate (coerceRow cols r).duration
          (coerceRow cols r).actualFinish := by
  simp [coerceRow]

theorem updateTask_eq (tasks : List Task) (sel : String) (p : Int)
    (s0 f0 : Option Date) :
    updateTask tasks sel p s0 f0
      = tasks.map (fun t =>
          if t.name = sel then
            { t with
                progress := p
                actualStart := s0
                actualFinish := f0
                delay := computeDelay t.startDate t.duration f0 }
          else t) := by
  unfold updateTask
  apply List.map_congr_left
  intro t _
  by_cases h : t.name = sel
  · cases f0 <;> simp [h, computeDelay, plannedFinish]
  · simp [h]

/-! ## C1: delay derivation -/

/-- C1: whenever the actual finish is present, the derived delay is the
signed day count from planned finish (startDate + duration - 1) to the
actual finish; when it is absent the delay is null, and a zero delay is a
different value from a null delay.  This is the delay stored by the
bulk import for every loaded record, and the update handler rewrites every
selected record with exactly this recomputed delay. -/
theorem delay_derivation (sd : Date) (dur : Int) (f : Date) (sheet : Sheet)
    (ts tasks : List Task) (sel : String) (p : Int) (s0 f0 : Option Date) :
    computeDelay sd dur (some f) = some (f - (sd + (dur - 1)))
    ∧ computeDelay sd dur none = none
    ∧ computeDelay sd dur (some (sd + (dur - 1))) = some 0
    ∧ computeDelay sd dur (some (sd + (dur - 1))) ≠ computeDelay sd dur none
    ∧ (loadTasksFromExcel sheet = Except.ok ts →
        ∀ t ∈ ts, t.delay = computeDelay t.startDate t.duration t.actualFinish)
    ∧ updateTask tasks sel p s0 f0
        = tasks.map (fun t =>
            if t.name = sel then
              { t with
                  progress := p
                  actualStart := s0
                  actualFinish := f0
                  delay := computeDelay t.startDate t.duration f0 }
            else t) := by
  refine ⟨computeDelay_some sd dur f, rfl, ?_, ?_, ?_, updateTask_eq tasks sel p s0 f0⟩
  · rw [computeDelay_some]
    simp
  · rw [computeDelay_some]
    simp [computeDelay]
  · intro hload t ht
    unfold loadTasksFromExcel at hload
    split at hload
    · split at hload
      · obtain ⟨rfl⟩ : sheet.rows.map (coerceRow sheet.cols) = ts :=
          by exact Except.ok.inj hload
        obtain ⟨r, _, rfl⟩ := List.mem_map.mp ht
        exact coerceRow_delay sheet.cols r
      · exact absurd hload (by simp)
    · exact absurd hload (by simp)

/-- Witness for C1 at concrete data: a one-row imported sheet with
duration 2 starting at day 0 and actual finish at day 5 gets delay 4. -/
theorem delay_derivation_witness :
    computeDelay 0 2 (some 5) = some (5 - (0 + (2 - 1)))
    ∧ (∀ t ∈ [{ name := "A", duration := 2, startDate := 0, dependsOn := "",
                progress := 0, actualStart := none, actualFinish := some 5,
                delay := some 4 : Task }],
        t.delay = computeDelay t.startDate t.duration t.actualFinish) := by
  have h := delay_derivation 0 2 5
    { cols := ["Task", "Duration", "Start Date", "Actual Finish"],
      rows := [{ task := "A", duration := 2, startDate := 0,
                 actualFinish := some 5 }] }
    [{ name := "A", duration := 2, startDate := 0, dependsOn := "",
       progress := 0, actualStart := none, actualFinish := some 5,
       delay := some 4 }]
    [] "" 0 none none
  exact ⟨h.1, h.2.2.2.2.1 (rfl)⟩

/-! ## C2: add-task validation -/

/-- C2: an add request with an empty name, or with a name equal
case-insensitively to the name of a task already in the store, is rejected
with a warning and leaves the store entirely unchanged; otherwise exactly
one new record is appended.  Hence case-insensitive name uniqueness is
preserved by every add. -/
theorem addTask_validation (tasks : List Task) (nm : String) (dur : Int)
    (sd : Date) (dep : String) (prog : Int) :
    (nm = "" → addTask tasks nm dur sd dep prog = (tasks, AddResult.emptyName))
    ∧ (nm ≠ "" → (∃ t ∈ tasks, lowerStr t.name = lowerStr nm) →
        addTask tasks nm dur sd dep prog = (tasks, AddResult.duplicate))
    ∧ (nm ≠ "" → (∀ t ∈ tasks, lowerStr t.name ≠ lowerStr nm) →
        addTask tasks nm dur sd dep prog
          = (tasks ++ [{ name := nm, duration := dur, startDate := sd,
                         dependsOn := dep, progress := prog,
                         actualStart := none, actualFinish := none,
                         delay := none }], AddResult.added))
    ∧ ((tasks.map (fun t => lowerStr t.name)).Nodup →
        ((addTask tasks nm dur sd dep prog).1.map
          (fun t => lowerStr t.name)).Nodup) := by
  refine ⟨?_, ?_, ?_, ?_⟩
  · intro h
    simp [addTask, h]
  · intro h hdup
    have hmem : lowerStr nm ∈ tasks.map (fun t => lowerStr t.name) := by
      obtain ⟨t, ht, he⟩ := hdup
      exact List.mem_map.mpr ⟨t, ht, he⟩
    simp [addTask, h, hmem]
  · intro h hnone
    have hmem : lowerStr nm ∉ tasks.map (fun t => lowerStr t.name) := by
      intro hc
      obtain ⟨t, ht, he⟩ := List.mem_map.mp hc
      exact hnone t ht he
    simp [addTask, h, hmem]
  · intro hnd
    by_cases h1 : nm = ""
    · simpa [addTask, h1] using hnd
    · by_cases h2 : lowerStr nm ∈ tasks.map (fun t => lowerStr t.name)
      · simpa [addTask, h1, h2] using hnd
      · have hfst : (addTask tasks nm dur sd dep prog).1
            = tasks ++ [{ name := nm, duration := dur, startDate := sd,
                          dependsOn := dep, progress := prog,
                          actualStart := none, actualFinish := none,
                          delay := none }] := by
          simp [addTask, h1, h2]
        rw [hfst, List.map_append, List.nodup_append]
        refine ⟨hnd, by simp, ?_⟩
        intro a ha hb
        simp only [List.map_cons, List.map_nil, List.mem_singleton] at hb
        exact h2 (hb ▸ ha)

/-- Witness for C2 at concrete data: adding b to a store holding B is
rejected as a duplicate; adding C succeeds and appends one record. -/
theorem addTask_validation_witness :
    addTask [{ name := "B", duration := 1, startDate := 0 : Task }] "b" 1 0 "" 0
      = ([{ name := "B", duration := 1, startDate := 0 : Task }],
         AddResult.duplicate)
    ∧ addTask [{ name := "B", duration := 1, startDate := 0 : Task }] "C" 1 0 "" 0
      = ([{ name := "B", duration := 1, startDate := 0 : Task },
          { name := "C", duration := 1, startDate := 0, dependsOn := "",
            progress := 0, actualStart := none, actualFinish := none,
            delay := none : Task }], AddResult.added) := by
  constructor
  · exact (addTask_validation [{ name := "B", duration := 1, startDate := 0 }]
      "b" 1 0 "" 0).2.1 (by decide)
      ⟨{ name := "B", duration := 1, startDate := 0 }, by decide, by decide⟩
  · exact (addTask_validation [{ name := "B", duration := 1, startDate := 0 }]
      "C" 1 0 "" 0).2.2.1 (by decide) (by decide)

/-! ## C3: atomic import -/

/-- C3: importing a dataset either succeeds and replaces the whole store
with the coerced records, or fails (in particular whenever the Task or
Duration column is absent) with one reported error while the previous
store is fully retained; there is no partial replacement. -/
theorem import_atomic (store : List Task) (sheet : Sheet) :
    (("Task" ∉ sheet.cols ∨ "Duration" ∉ sheet.cols) →
      importTasks store sheet = (store, some "Invalid Excel file format"))
    ∧ (∀ e, loadTasksFromExcel sheet = Except.error e →
        importTasks store sheet = (store, some e))
    ∧ (∀ ts, loadTasksFromExcel sheet = Except.ok ts →
        importTasks store sheet = (ts, none)
          ∧ ts = sheet.rows.map (coerceRow sheet.cols)) := by
  refine ⟨?_, ?_, ?_⟩
  · intro h
    have he : loadTasksFromExcel sheet = Except.error "Invalid Excel file format" := by
      unfold loadTasksFromExcel
      rcases h with h | h <;> simp [h]
    simp [importTasks, he]
  · intro e he
    simp [importTasks, he]
  · intro ts hok
    refine ⟨by simp [importTasks, hok], ?_⟩
    unfold loadTasksFromExcel at hok
    split at hok
    · split at hok
      · exact (Except.ok.inj hok).symm
      · exact absurd hok (by simp)
    · exact absurd hok (by simp)

/-- Witness for C3 at concrete data: a sheet missing the Duration column is
rejected and a one-row store survives; a well-formed one-row sheet replaces
the store. -/
theorem import_atomic_witness :
    importTasks [{ name := "B", duration := 1, startDate := 0 : Task }]
        { cols := ["Task", "Start Date"], rows := [] }
      = ([{ name := "B", duration := 1, startDate := 0 : Task }],
         some "Invalid Excel file format")
    ∧ importTasks [{ name := "B", duration := 1, startDate := 0 : Task }]
        { cols := ["Task", "Duration", "Start Date"],
          rows := [{ task := "A", duration := 3, startDate := 7 }] }
      = ([{ name := "A", duration := 3, startDate := 7, dependsOn := "",
            progress := 0, actualStart := none, actualFinish := none,
            delay := none : Task }], none) := by
  constructor
  · exact (import_atomic [{ name := "B", duration := 1, startDate := 0 }]
      { cols := ["Task", "Start Date"], rows := [] }).1 (by decide)
  · exact ((import_atomic [{ name := "B", duration := 1, startDate := 0 }]
      { cols := ["Task", "Duration", "Start Date"],
        rows := [{ task := "A", duration := 3, startDate := 7 }] }).2.2
      [{ name := "A", duration := 3, startDate := 7, dependsOn := "",
         progress := 0, actualStart := none, actualFinish := none,
         delay := none }] (rfl)).1

/-! ## C4: progress bar -/

/-- C4: the progress bar is emitted exactly when progress is positive, it
is based at the start timestamp with length Duration * (Progress / 100)
days, that length is monotonically non-decreasing in progress, and at
progress 100 it equals the planned-bar length. -/
theorem progress_bar_spec (t : Task) (p1 p2 : Int) :
    ((progressTrace t).isSome ↔ 0 < t.progress)
    ∧ (∀ b, progressTrace t = some b →
        b.base = startTs t
          ∧ b.x = (t.duration : ℚ) * ((t.progress : ℚ) / 100) * dayToMs)
    ∧ (0 ≤ t.duration → p1 ≤ p2 →
        (t.duration : ℚ) * ((p1 : ℚ) / 100) * dayToMs
          ≤ (t.duration : ℚ) * ((p2 : ℚ) / 100) * dayToMs)
    ∧ (t.progress = 100 → ∀ b, progressTrace t = some b →
        b.x = (plannedTrace t).x) := by
  refine ⟨?_, ?_, ?_, ?_⟩
  · by_cases h : 0 < t.progress <;> simp [progressTrace, h]
  · intro b hb
    by_cases h : 0 < t.progress
    · simp only [progressTrace, if_pos h, Option.some.injEq] at hb
      rw [← hb]
      exact ⟨rfl, rfl⟩
    · simp [progressTrace, h] at hb
  · intro hdur hp
    have hd : (0 : ℚ) ≤ (t.duration : ℚ) := by exact_mod_cast hdur
    have hq : ((p1 : ℚ) / 100) ≤ ((p2 : ℚ) / 100) := by
      apply div_le_div_of_nonneg_right ?_ (by norm_num)
      exact_mod_cast hp
    have hday : (0 : ℚ) ≤ dayToMs := by norm_num [dayToMs]
    exact mul_le_mul_of_nonneg_right (mul_le_mul_of_nonneg_left hq hd) hday
  · intro h100 b hb
    by_cases h : 0 < t.progress
    · simp only [progressTrace, if_pos h, Option.some.injEq] at hb
      rw [← hb]
      simp only [plannedTrace, h100]
      norm_num
    · simp [progressTrace, h] at hb

/-- Witness for C4 at concrete data: duration 10 at progress 50 gives a
5-day (432000000 ms) progress bar based at the start, and the length
formula is monotone from 50 to 100. -/
theorem progress_bar_spec_witness :
    ({ x := 432000000, base := 0, color := "green", label := "Progress",
       offset := -(0.2 : ℚ) : BarTrace }.base
        = startTs { name := "A", duration := 10, startDate := 0, progress := 50 }
      ∧ { x := 432000000, base := 0, color := "green", label := "Progress",
          offset := -(0.2 : ℚ) : BarTrace }.x
        = (({ name := "A", duration := 10, startDate := 0, progress := 50 : Task }).duration : ℚ)
            * ((({ name := "A", duration := 10, startDate := 0, progress := 50 : Task }).progress : ℚ) / 100)
            * dayToMs)
    ∧ (({ name := "A", duration := 10, startDate := 0, progress := 50 : Task }).duration : ℚ)
        * ((50 : ℚ) / 100) * dayToMs
      ≤ (({ name := "A", duration := 10, startDate := 0, progress := 50 : Task }).duration : ℚ)
        * ((100 : ℚ) / 100) * dayToMs := by
  have h := progress_bar_spec
    { name := "A", duration := 10, startDate := 0, progress := 50 } 50 100
  refine ⟨h.2.1 _ ?_, h.2.2.1 (by decide) (by decide)⟩
  simp only [progressTrace, startTs, dayToMs]
  norm_num

/-! ## C5: actual bar -/

/-- C5: the actual bar is emitted exactly when both actual dates are
present; it is based at the actual start and its length is
(actualFinish - actualStart) + 1 days, so the finish day is included and
a 2024-01-01 to 2024-01-03 actual run yields a 3-day bar. -/
theorem actual_bar_spec (t : Task) :
    ((actualTrace t).isSome ↔ (t.actualStart.isSome ∧ t.actualFinish.isSome))
    ∧ (∀ s f b, t.actualStart = some s → t.actualFinish = some f →
        actualTrace t = some b →
        b.base = (s : ℚ) * dayToMs ∧ b.x = ((f - s + 1 : Int) : ℚ) * dayToMs)
    ∧ (∀ s f b, t.actualStart = some s → t.actualFinish = some f →
        actualTrace t = some b → f - s = 2 → b.x = 3 * dayToMs) := by
  have hmain : ∀ s f b, t.actualStart = some s → t.actualFinish = some f →
      actualTrace t = some b →
      b.base = (s : ℚ) * dayToMs ∧ b.x = ((f - s + 1 : Int) : ℚ) * dayToMs := by
    intro s f b hs hf hb
    simp only [actualTrace, hs, hf, Option.some.injEq] at hb
    rw [← hb]
    exact ⟨rfl, rfl⟩
  refine ⟨?_, hmain, ?_⟩
  · cases hs : t.actualStart <;> cases hf : t.actualFinish <;>
      simp [actualTrace, hs, hf]
  · intro s f b hs hf hb hspan
    have hx := (hmain s f b hs hf hb).2
    rw [hx]
    have h3 : f - s + 1 = 3 := by rw [hspan]; norm_num
    rw [h3]
    norm_num

/-- Witness for C5 at concrete data: actual start day 19723 (2024-01-01)
and actual finish day 19725 (2024-01-03) give a 259200000 ms = 3-day bar
based at the 2024-01-01 timestamp. -/
theorem actual_bar_spec_witness :
    ({ x := 259200000, base := 1704067200000, color := "#ffa500",
       label := "Actual (On Time)", offset := (0.2 : ℚ) : BarTrace }.base
        = ((19723 : Int) : ℚ) * dayToMs)
    ∧ ({ x := 259200000, base := 1704067200000, color := "#ffa500",
         label := "Actual (On Time)", offset := (0.2 : ℚ) : BarTrace }.x
        = 3 * dayToMs) := by
  have h := actual_bar_spec
    { name := "A", duration := 1, startDate := 19723,
      actualStart := some 19723, actualFinish := some 19725 }
  have hb : actualTrace
      { name := "A", duration := 1, startDate := 19723,
        actualStart := some 19723, actualFinish := some 19725 }
      = some { x := 259200000, base := 1704067200000, color := "#ffa500",
               label := "Actual (On Time)", offset := (0.2 : ℚ) } := by
    simp only [actualTrace, delayStyle, dayToMs]
    norm_num
  exact ⟨(h.2.1 19723 19725 _ rfl rfl hb).1,
         h.2.2 19723 19725 _ rfl rfl hb (by decide)⟩

/-! ## C6: actual-bar styling by delay sign -/

/-- C6: every emitted actual bar carries the styling selected from the sign
of the delay: positive delay gives the delayed styling, negative the ahead
styling, and zero or missing delay the on-time styling. -/
theorem actual_bar_styling (t : Task) :
    (∀ b, actualTrace t = some b →
      b.color = (delayStyle t.delay).1 ∧ b.label = (delayStyle t.delay).2)
    ∧ (∀ d : Int, 0 < d → delayStyle (some d) = ("#ff4c4c", "Actual (Delayed)"))
    ∧ (∀ d : Int, d < 0 → delayStyle (some d) = ("#ffd700", "Actual (Ahead)"))
    ∧ delayStyle (some 0) = ("#ffa500", "Actual (On Time)")
    ∧ delayStyle none = ("#ffa500", "Actual (On Time)") := by
  refine ⟨?_, ?_, ?_, rfl, rfl⟩
  · intro b hb
    cases hs : t.actualStart with
    | none => simp [actualTrace, hs] at hb
    | some s =>
        cases hf : t.actualFinish with
        | none => simp [actualTrace, hs, hf] at hb
        | some f =>
            simp only [actualTrace, hs, hf, Option.some.injEq] at hb
            rw [← hb]
            exact ⟨rfl, rfl⟩
  · intro d hd
    simp [delayStyle, hd]
  · intro d hd
    have : ¬ (0 < d) := by omega
    simp [delayStyle, this, hd]

/-- Witness for C6 at concrete data: delays 1 and -1 select the delayed and
ahead stylings. -/
theorem actual_bar_styling_witness :
    delayStyle (some 1) = ("#ff4c4c", "Actual (Delayed)")
    ∧ delayStyle (some (-1)) = ("#ffd700", "Actual (Ahead)") := by
  have h := actual_bar_styling { name := "A", duration := 1, startDate := 0 }
  exact ⟨h.2.1 1 (by decide), h.2.2.1 (-1) (by decide)⟩

/-! ## Lookup lemmas -/

theorem findFrom_isSome (i : Nat) (tasks : List Task) (dep : List Char) :
    (findFrom i tasks dep).isSome ↔ ∃ d ∈ tasks, lowerStr d.name = dep := by
  induction tasks generalizing i with
  | nil => simp [findFrom]
  | cons t rest ih =>
      by_cases h : lowerStr t.name = dep
      · simp [findFrom, h]
      · simp only [findFrom, if_neg h]
        rw [ih (i + 1)]
        constructor
        · rintro ⟨d, hd, he⟩
          exact ⟨d, List.mem_cons_of_mem t hd, he⟩
        · rintro ⟨d, hd, he⟩
          rcases List.mem_cons.mp hd with rfl | hd2
          · exact absurd he h
          · exact ⟨d, hd2, he⟩

theorem findFrom_eq_none (i : Nat) (tasks : List Task) (dep : List Char) :
    findFrom i tasks dep = none ↔ ∀ d ∈ tasks, lowerStr d.name ≠ dep := by
  rw [← Option.not_isSome_iff_eq_none, findFrom_isSome]
  push_neg
  simp

theorem findFrom_append_first (i : Nat) (pre post : List Task) (t : Task)
    (dep : List Char) (hpre : ∀ u ∈ pre, lowerStr u.name ≠ dep)
    (ht : lowerStr t.name = dep) :
    findFrom i (pre ++ t :: post) dep = some (i + pre.length, t) := by
  revert hpre
  induction pre generalizing i with
  | nil =>
      intro _
      simp [findFrom, ht]
  | cons u rest ih =>
      intro hpre
      have hu : lowerStr u.name ≠ dep := hpre u (List.mem_cons_self u rest)
      have hrest : ∀ v ∈ rest, lowerStr v.name ≠ dep :=
        fun v hv => hpre v (List.mem_cons_of_mem u hv)
      simp only [List.cons_append, findFrom, if_neg hu, List.append_eq]
      rw [ih (i + 1) hrest]
      have harith : i + 1 + rest.length = i + (u :: rest).length := by
        simp [List.length_cons]
        omega
      rw [harith]

theorem findFrom_key_congr (i : Nat) (tasks tasks2 : List Task) (dep : List Char)
    (h : tasks.map taskKey = tasks2.map taskKey) :
    Option.map (fun p => (p.1, taskKey p.2)) (findFrom i tasks dep)
      = Option.map (fun p => (p.1, taskKey p.2)) (findFrom i tasks2 dep) := by
  induction tasks generalizing tasks2 i with
  | nil =>
      cases tasks2 with
      | nil => rfl
      | cons _ _ => simp at h
  | cons t rest ih =>
      cases tasks2 with
      | nil => simp at h
      | cons t2 rest2 =>
          simp only [List.map_cons, List.cons.injEq] at h
          obtain ⟨hk, hrest⟩ := h
          have hname : t.name = t2.name := congrArg (fun q => q.1) hk
          by_cases hc : lowerStr t.name = dep
          · have hc2 : lowerStr t2.name = dep := by rw [lowerStr, ← hname]; exact hc
            simp [findFrom, hc, hc2, hk]
          · have hc2 : ¬ lowerStr t2.name = dep := by rw [lowerStr, ← hname]; exact hc
            simp only [findFrom, if_neg hc, if_neg hc2]
            exact ih (i + 1) rest2 hrest

theorem connectorFor_key_congr (tasks tasks2 : List Task) (i : Nat) (t : Task)
    (h : tasks.map taskKey = tasks2.map taskKey) :
    connectorFor tasks i t = connectorFor tasks2 i t := by
  simp only [connectorFor]
  by_cases hdep : stripStr t.dependsOn ≠ []
  · rw [if_pos hdep, if_pos hdep]
    have hf := findFrom_key_congr 0 tasks tasks2
      ((stripStr t.dependsOn).map Char.toLower) h
    cases hx : findFrom 0 tasks ((stripStr t.dependsOn).map Char.toLower) with
    | none =>
        cases hy : findFrom 0 tasks2 ((stripStr t.dependsOn).map Char.toLower) with
        | none => rfl
        | some q =>
            rw [hx, hy] at hf
            simp at hf
    | some p =>
        cases hy : findFrom 0 tasks2 ((stripStr t.dependsOn).map Char.toLower) with
        | none =>
            rw [hx, hy] at hf
            simp at hf
        | some q =>
            rw [hx, hy] at hf
            obtain ⟨j1, d1⟩ := p
            obtain ⟨j2, d2⟩ := q
            simp only [Option.map_some', Option.some.injEq, Prod.mk.injEq] at hf
            obtain ⟨hj, hk⟩ := hf
            have h1 : d1.startDate = d2.startDate := congrArg (fun q => q.2.1) hk
            have h2 : d1.duration = d2.duration := congrArg (fun q => q.2.2) hk
            simp [depEndTs, endDate, h1, h2, hj]
  · rw [if_neg hdep, if_neg hdep]

/-! ## C7: dependency resolution -/

/-- C7: a task with a nonempty dependency string gets a connector exactly
when some task in the store matches the whole string case-insensitively;
with no such match it gets no connector, and connectors depend on the
other records only through their name and planned dates, so an unresolved
dependency elsewhere never changes this connector. -/
theorem dependency_resolution (tasks tasks2 : List Task) (i : Nat) (t : Task) :
    (stripStr t.dependsOn ≠ [] →
      ((connectorFor tasks i t).isSome
        ↔ ∃ d ∈ tasks,
            lowerStr d.name = (stripStr t.dependsOn).map Char.toLower))
    ∧ ((∀ d ∈ tasks,
          lowerStr d.name ≠ (stripStr t.dependsOn).map Char.toLower) →
        connectorFor tasks i t = none)
    ∧ (tasks.map taskKey = tasks2.map taskKey →
        connectorFor tasks i t = connectorFor tasks2 i t) := by
  refine ⟨?_, ?_, connectorFor_key_congr tasks tasks2 i t⟩
  · intro hdep
    simp only [connectorFor]
    rw [if_pos hdep, ← findFrom_isSome 0 tasks ((stripStr t.dependsOn).map Char.toLower)]
    cases hx : findFrom 0 tasks ((stripStr t.dependsOn).map Char.toLower) with
    | none => simp [hx]
    | some p =>
        obtain ⟨j, d⟩ := p
        simp [hx]
  · intro hall
    by_cases hdep : stripStr t.dependsOn ≠ []
    · simp only [connectorFor]
      rw [if_pos hdep, (findFrom_eq_none 0 tasks _).mpr hall]
    · simp only [connectorFor]
      rw [if_neg hdep]

/-- Witness for C7 at concrete data: a dependency on Foundation resolves in
a store holding foundation (case-insensitive exact match) but yields no
connector in a store holding only Foundation Work (substring mismatch). -/
theorem dependency_resolution_witness :
    (connectorFor
      [{ name := "Foundation Work", duration := 1, startDate := 0 },
       { name := "foundation", duration := 1, startDate := 0 }] 2
      { name := "Walls", duration := 1, startDate := 9,
        dependsOn := "Foundation" }).isSome
    ∧ connectorFor [{ name := "Foundation Work", duration := 1, startDate := 0 }] 0
        { name := "Walls", duration := 1, startDate := 9,
          dependsOn := "Foundation" } = none := by
  constructor
  · exact ((dependency_resolution
      [{ name := "Foundation Work", duration := 1, startDate := 0 },
       { name := "foundation", duration := 1, startDate := 0 }] [] 2
      { name := "Walls", duration := 1, startDate := 9,
        dependsOn := "Foundation" }).1 (by decide)).mpr
      ⟨{ name := "foundation", duration := 1, startDate := 0 },
       by decide, by decide⟩
  · exact (dependency_resolution
      [{ name := "Foundation Work", duration := 1, startDate := 0 }] [] 0
      { name := "Walls", duration := 1, startDate := 9,
        dependsOn := "Foundation" }).2.1 (by decide)

/-! ## C8: self-dependency -/

/-- C8 counterexample: for the task named A depending on A, the claim that
the resulting connector is a no-op (zero-length and not drawn) is false:
line shapes are drawn for it and the horizontal one has nonzero length. -/
theorem self_dependency_cex :
    ¬ (drawnShapes [selfTask] 0 selfTask = []
        ∨ ∀ s ∈ drawnShapes [selfTask] 0 selfTask, zeroLength s) := by
  have hfind : findFrom 0 [selfTask]
      ((stripStr selfTask.dependsOn).map Char.toLower) = some (0, selfTask) := by
    decide
  have hc : connectorFor [selfTask] 0 selfTask
      = some { viaX := depEndTs selfTask, fromRow := 0, toRow := 0,
               hEndX := startTs selfTask - 100000,
               arrowX := startTs selfTask } := by
    simp only [connectorFor]
    rw [if_pos (by decide : stripStr selfTask.dependsOn ≠ []), hfind]
  have hd : drawnShapes [selfTask] 0 selfTask
      = [ { x0 := depEndTs selfTask, y0 := 0, x1 := depEndTs selfTask, y1 := 0 },
          { x0 := depEndTs selfTask, y0 := 0,
            x1 := startTs selfTask - 100000, y1 := 0 } ] := by
    simp [drawnShapes, hc, connectorShapes]
  rw [hd]
  push_neg
  refine ⟨by simp, ?_⟩
  refine ⟨{ x0 := depEndTs selfTask, y0 := 0,
            x1 := startTs selfTask - 100000, y1 := 0 }, by simp, ?_⟩
  intro hz
  have hx := hz.1
  rw [depEndTs, startTs, endDate, dayToMs, selfTask] at hx
  norm_num at hx

/-- C8 amended: a self-dependency does resolve to the task itself, making
the vertical connector segment zero-length (it joins a row to itself), but
the connector is not skipped: its shapes are drawn and the horizontal
segment has nonzero length, running from the end of the task back past its
own start. -/
theorem self_dependency_amended (pre post : List Task) (t : Task)
    (hdep : lowerStr t.name = (stripStr t.dependsOn).map Char.toLower)
    (hne : stripStr t.dependsOn ≠ [])
    (hpre : ∀ u ∈ pre, lowerStr u.name ≠ (stripStr t.dependsOn).map Char.toLower)
    (hdur : 1 ≤ t.duration) :
    ∃ c, connectorFor (pre ++ t :: post) pre.length t = some c
      ∧ c.fromRow = pre.length ∧ c.toRow = pre.length
      ∧ c.hEndX < c.viaX
      ∧ drawnShapes (pre ++ t :: post) pre.length t ≠ [] := by
  have hc : connectorFor (pre ++ t :: post) pre.length t
      = some { viaX := depEndTs t, fromRow := pre.length, toRow := pre.length,
               hEndX := startTs t - 100000, arrowX := startTs t } := by
    simp only [connectorFor]
    rw [if_pos hne, findFrom_append_first 0 pre post t _ hpre hdep]
    simp
  refine ⟨_, hc, rfl, rfl, ?_, ?_⟩
  · show startTs t - 100000 < depEndTs t
    rw [depEndTs, startTs, endDate, dayToMs]
    have hq : (1 : ℚ) ≤ (t.duration : ℚ) := by exact_mod_cast hdur
    have hmul : (1 : ℚ) * 86400000 ≤ (t.duration : ℚ) * 86400000 :=
      mul_le_mul_of_nonneg_right hq (by norm_num)
    push_cast
    nlinarith [hmul]
  · simp [drawnShapes, hc, connectorShapes]

/-- Witness for the amended C8 at concrete data: the task named A depending
on A resolves to itself with a drawn, nonzero-length horizontal segment. -/
theorem self_dependency_amended_witness :
    ∃ c, connectorFor [selfTask] 0 selfTask = some c
      ∧ c.fromRow = 0 ∧ c.toRow = 0
      ∧ c.hEndX < c.viaX
      ∧ drawnShapes [selfTask] 0 selfTask ≠ [] := by
  have h := self_dependency_amended [] [] selfTask (by decide) (by decide)
    (by simp) (by decide)
  exact h

/-! ## C9: export-import round trip -/

/-- C9: exporting a nonempty store whose delays agree with the delay
formula and importing the result back succeeds and yields exactly the same
task list: names, durations, start dates, dependencies, progress and
actuals survive, and each delay is recomputed to the identical value. -/
theorem export_import_roundtrip (ts : List Task) (hne : ts ≠ [])
    (hcons : ∀ t ∈ ts,
      t.delay = computeDelay t.startDate t.duration t.actualFinish) :
    ∃ sheet, saveTasksToExcel ts = some sheet
      ∧ loadTasksFromExcel sheet = Except.ok ts := by
  refine ⟨{ cols := exportCols, rows := ts.map taskToRow }, ?_, ?_⟩
  · simp [saveTasksToExcel, hne]
  · simp only [loadTasksFromExcel]
    rw [if_pos ⟨by decide, by decide⟩, if_pos (by decide)]
    congr 1
    rw [List.map_map]
    have hid : ∀ t ∈ ts, (coerceRow exportCols ∘ taskToRow) t = t := by
      intro t ht
      have hcoerce : coerceRow exportCols (taskToRow t)
          = { t with delay := computeDelay t.startDate t.duration t.actualFinish } := by
        simp only [coerceRow, taskToRow]
        rw [if_pos (by decide : "Actual Start" ∈ exportCols),
            if_pos (by decide : "Actual Finish" ∈ exportCols),
            if_pos (by decide : "Depends On" ∈ exportCols),
            if_pos (by decide : "Progress" ∈ exportCols)]
      show coerceRow exportCols (taskToRow t) = t
      rw [hcoerce, ← hcons t ht]
    calc ts.map (coerceRow exportCols ∘ taskToRow)
        = ts.map id := List.map_congr_left hid
      _ = ts := List.map_id ts

/-- Witness for C9 at concrete data: a one-task store with a consistent
delay round-trips to itself. -/
theorem export_import_roundtrip_witness :
    ∃ sheet, saveTasksToExcel
        [{ name := "A", duration := 2, startDate := 0, dependsOn := "B",
           progress := 30, actualStart := some 1, actualFinish := some 5,
           delay := some 4 }] = some sheet
      ∧ loadTasksFromExcel sheet = Except.ok
          [{ name := "A", duration := 2, startDate := 0, dependsOn := "B",
             progress := 30, actualStart := some 1, actualFinish := some 5,
             delay := some 4 }] := by
  exact export_import_roundtrip
    [{ name := "A", duration := 2, startDate := 0, dependsOn := "B",
       progress := 30, actualStart := some 1, actualFinish := some 5,
       delay := some 4 }] (by simp) (by decide)

/-! ## C10: first match wins -/

/-- C10: when the dependency string of a task matches the first of possibly
several case-insensitive name matches, the single connector produced is
anchored to that first matching row, whatever tasks follow it; later
matches produce no additional connector. -/
theorem first_match_anchor (pre post : List Task) (t : Task) (i : Nat)
    (u : Task) (hne : stripStr u.dependsOn ≠ [])
    (hmatch : lowerStr t.name = (stripStr u.dependsOn).map Char.toLower)
    (hpre : ∀ w ∈ pre, lowerStr w.name ≠ (stripStr u.dependsOn).map Char.toLower) :
    connectorFor (pre ++ t :: post) i u
      = some { viaX := depEndTs t, fromRow := pre.length, toRow := i,
               hEndX := startTs u - 100000, arrowX := startTs u } := by
  simp only [connectorFor]
  rw [if_pos hne, findFrom_append_first 0 pre post t _ hpre hmatch]
  simp

/-- Witness for C10 at concrete data: with tasks named B and b both
matching the dependency string B of task C, the connector is anchored to
the first (row 0). -/
theorem first_match_anchor_witness :
    connectorFor
        [{ name := "B", duration := 2, startDate := 0 },
         { name := "b", duration := 4, startDate := 10 },
         { name := "C", duration := 1, startDate := 9, dependsOn := "B" }] 2
        { name := "C", duration := 1, startDate := 9, dependsOn := "B" }
      = some { viaX := depEndTs { name := "B", duration := 2, startDate := 0 },
               fromRow := 0, toRow := 2,
               hEndX := startTs { name := "C", duration := 1, startDate := 9,
                                  dependsOn := "B" } - 100000,
               arrowX := startTs { name := "C", duration := 1, startDate := 9,
                                   dependsOn := "B" } } := by
  exact first_match_anchor []
    [{ name := "b", duration := 4, startDate := 10 },
     { name := "C", duration := 1, startDate := 9, dependsOn := "B" }]
    { name := "B", duration := 2, startDate := 0 } 2
    { name := "C", duration := 1, startDate := 9, dependsOn := "B" }
    (by decide) (by decide) (by simp)

end Schedule
